import Mathlib

/-!
Shallow embedding of the air-quality analysis tool
(`src/backend/tools/analysis_tool.py`, class `DataAnalysisTool`).

Modelling conventions:
* A room file is a list of `Line`s.  JSON parsing of a physical line is
  abstracted into the `Line` type: a line is blank (only whitespace),
  malformed (non-blank and not valid JSON), or a parsed JSON object
  (association list of scalar values).  This mirrors the only three
  outcomes `json.loads` can have on a line in this program.
* Scalar JSON values are `Value`: rationals stand in for Python numbers
  (the program's statistics are arithmetic on these values), strings are
  strings, `null` is explicit.
* `pd.to_datetime` is modelled by `parseTs`, covering the timestamp
  shapes this program consumes (`YYYY-MM-DD`, optionally followed by
  `THH:MM:SS` or ` HH:MM:SS`); any other string is unparseable, which
  models the `pd.to_datetime` failure path.  Parsed timestamps are
  seconds since 1970-01-01 as integers.
* A pandas `DataFrame` is `DataF`: a column-name list plus rows of cells
  positionally aligned with the columns.  `Cell.na` models `NaN`/`NaT`.
* Serialized output (`to_json(orient='index')`) is kept structural: the
  tool's textual payload is modelled by `Out`, where `Out.json t` stands
  for the serialized form of table `t` (serialization is injective on
  tables, so structural equality models string equality).
* Exceptions are values of `PyErr`; a `try/except` is a `match` on
  `Except PyErr _`.
* Two corners are simplified: metric cells that hold strings are
  skipped by the aggregations (like missing values), and a column with
  no rows counts as numeric for `describe`; neither corner is reachable
  from the claims checked here.
-/

/-- A scalar JSON value appearing in a record. -/
inductive Value where
  | num (q : ℚ)
  | str (s : String)
  | null
deriving DecidableEq, Repr

/-- One physical line of an NDJSON room file, abstracted by its JSON
parse outcome. -/
inductive Line where
  | blank
  | malformed
  | record (fields : List (String × Value))
deriving DecidableEq, Repr

/-- The data folder: room id (filename stem) to file contents. -/
abbrev FS := List (String × List Line)

def lookupFS (fs : FS) (room : String) : Option (List Line) :=
  fs.lookup room

/-- Python exceptions raised inside the tool. -/
inductive PyErr where
  | fileNotFound (room : String)
  | jsonDecode
  | tsParse (s : String)
  | keyError (k : String)
deriving DecidableEq, Repr

/-- Model of `str(e)` for the exceptions above (representative messages). -/
def pyMsg : PyErr → String
  | .fileNotFound room => "Data file for " ++ room ++ " not found"
  | .jsonDecode => "Expecting value"
  | .tsParse s => "Unknown datetime string format: " ++ s
  | .keyError k => "'" ++ k ++ "'"

/-! ### Timestamp parsing (model of `pd.to_datetime` on this program's inputs) -/

def digitVal (c : Char) : Option Nat :=
  if c.isDigit then some (c.toNat - 48) else none

def natOfDigits (cs : List Char) : Option Nat :=
  cs.foldlM (fun a c => (digitVal c).map (fun d => a * 10 + d)) 0

def isLeap (y : Nat) : Bool :=
  y % 4 == 0 && (y % 100 != 0 || y % 400 == 0)

def daysInMonth (y m : Nat) : Nat :=
  if m == 2 then (if isLeap y then 29 else 28)
  else if m == 4 || m == 6 || m == 9 || m == 11 then 30
  else 31

/-- Days from 1970-01-01 to year `y`, month `m`, day `d` (civil
calendar, `y ≥ 1`). -/
def daysFromCivil (y m d : Nat) : Int :=
  let y' := if m ≤ 2 then y - 1 else y
  let era := y' / 400
  let yoe := y' % 400
  let mp := if m > 2 then m - 3 else m + 9
  let doy := (153 * mp + 2) / 5 + (d - 1)
  let doe := yoe * 365 + yoe / 4 - yoe / 100 + doy
  (era * 146097 + doe : Int) - 719468

/-- Parse `HH:MM:SS` into seconds of day. -/
def parseHMS (cs : List Char) : Option Nat :=
  match cs with
  | [h1, h2, ':', m1, m2, ':', s1, s2] => do
    let h ← natOfDigits [h1, h2]
    let mi ← natOfDigits [m1, m2]
    let se ← natOfDigits [s1, s2]
    if h < 24 && mi < 60 && se < 60 then some (h * 3600 + mi * 60 + se) else none
  | _ => none

/-- Parse a timestamp string to seconds since 1970-01-01; `none` models
a `pd.to_datetime` parse failure. -/
def parseTs (s : String) : Option Int :=
  match s.toList with
  | y1 :: y2 :: y3 :: y4 :: '-' :: m1 :: m2 :: '-' :: d1 :: d2 :: rest => do
    let y ← natOfDigits [y1, y2, y3, y4]
    let m ← natOfDigits [m1, m2]
    let d ← natOfDigits [d1, d2]
    if 1 ≤ m && m ≤ 12 && 1 ≤ d && d ≤ daysInMonth y m && y ≥ 1 then
      let base := daysFromCivil y m d * 86400
      match rest with
      | [] => some base
      | 'T' :: tl => (parseHMS tl).map (fun sod => base + sod)
      | ' ' :: tl => (parseHMS tl).map (fun sod => base + sod)
      | _ => none
    else none
  | _ => none

/-! ### Schema Normalizer (`_column_mappings`, `_normalize_column_name`) -/

def columnMappings : List (String × List String) :=
  [("timestamp", ["timestamp", "time", "datetime", "date_time", "ts"]),
   ("co2", ["co2", "CO2", "CO2 (ppm)", "CO2 (PPM)"]),
   ("humidity", ["rh", "Relative Humidity (%)", "RH"]),
   ("temperature", ["temp", "Temp", "Temperature (°C)"])]

/-- Model of `str.lower()` on one character (ASCII letters; every character in
the alias table and this program's column names is ASCII or `°`, which
`lower()` leaves unchanged). -/
def charLower (c : Char) : Char :=
  if 'A' ≤ c ∧ c ≤ 'Z' then Char.ofNat (c.toNat + 32) else c

/-- Model of `str.lower()`. -/
def pyLower (s : String) : String := String.mk (s.data.map charLower)

/-- Does raw column `c` match one of the synonyms of `target`
(case-insensitive), as in `col.lower() in [name.lower() ...]`? -/
def matchesSyn (target c : String) : Bool :=
  ((columnMappings.lookup target).getD []).any (fun n => pyLower n == pyLower c)

def findFirstMatch (target : String) : List String → Option String
  | [] => none
  | c :: rest => if matchesSyn target c then some c else findFirstMatch target rest

/-- Model of `_normalize_column_name`: first raw column matching a synonym of the
target metric, case-insensitively. -/
def normalizeColumnName (columns : List String) (targetMetric : String) : Option String :=
  findFirstMatch targetMetric columns

/-! ### DataFrame model -/

/-- One DataFrame cell.  `na` models `NaN`/`NaT`; `t` a parsed datetime;
`date` a `datetime.date` (days since 1970-01-01). -/
inductive Cell where
  | v (x : Value)
  | t (ts : Int)
  | date (d : Int)
  | na
deriving DecidableEq, Repr

/-- A DataFrame: column names plus rows of cells positionally aligned
with the columns. -/
structure DataF where
  cols : List String
  rows : List (List Cell)
deriving DecidableEq, Repr

def cellOfValue : Option Value → Cell
  | none => .na
  | some .null => .na
  | some v => .v v

/-- Cell of `row` in the column named `name` (first occurrence). -/
def cellAt (cols : List String) (row : List Cell) (name : String) : Cell :=
  row.getD (cols.indexOf name) Cell.na

/-- Column assignment `df[name] = ...`: overwrite in place if the column
exists, else append it. -/
def setCol (df : DataF) (name : String) (mk : List String → List Cell → Cell) : DataF :=
  if df.cols.contains name then
    let i := df.cols.indexOf name
    { cols := df.cols, rows := df.rows.map (fun r => r.set i (mk df.cols r)) }
  else
    { cols := df.cols ++ [name], rows := df.rows.map (fun r => r ++ [mk df.cols r]) }

/-! ### Room Loader (`_load_room_data`) -/

/-- Parse the file's lines as one JSON object per line, skipping blank
lines; a malformed line fails the whole parse. -/
def parseLines : List Line → Except PyErr (List (List (String × Value)))
  | [] => .ok []
  | Line.blank :: rest => parseLines rest
  | Line.malformed :: _ => .error .jsonDecode
  | Line.record f :: rest => (parseLines rest).map (f :: ·)

def addNames (acc : List String) (cs : List String) : List String :=
  cs.foldl (fun a c => if a.contains c then a else a ++ [c]) acc

/-- Column order of `pd.DataFrame(list_of_dicts)`: keys in first
appearance order. -/
def columnsOf (recs : List (List (String × Value))) : List String :=
  recs.foldl (fun acc f => addNames acc (f.map Prod.fst)) []

def renameTargets : List String := ["co2", "temperature", "humidity", "timestamp"]

/-- The `column_map` built in `_load_room_data`: actual column name to
canonical metric, one entry per canonical metric that matched. -/
def buildColMap (rawCols : List String) : List (String × String) :=
  renameTargets.foldl
    (fun m t =>
      match normalizeColumnName rawCols t with
      | some c => m ++ [(c, t)]
      | none => m) []

/-- Model of `pd.to_datetime` on one timestamp cell; numbers are epoch offsets,
missing values become `NaT`, unparseable strings raise. -/
def parseTsCell : Cell → Except PyErr Cell
  | Cell.v (.str s) =>
    match parseTs s with
    | some t => .ok (.t t)
    | none => .error (.tsParse s)
  | Cell.v (.num q) => .ok (.t ⌊q⌋)
  | Cell.v .null => .ok .na
  | Cell.na => .ok .na
  | c => .ok c

/-- Error-propagating map over a list (explicit recursion for proof
convenience; equals `List.mapM` in the `Except` monad). -/
def mapExcept (f : α → Except PyErr β) : List α → Except PyErr (List β)
  | [] => .ok []
  | a :: rest =>
    match f a with
    | .error e => .error e
    | .ok b => (mapExcept f rest).map (b :: ·)

/-- Parse the `timestamp` column in place, if present. -/
def withTimestamp (df : DataF) : Except PyErr DataF :=
  if df.cols.contains "timestamp" then
    match mapExcept (fun r =>
        (parseTsCell (r.getD (df.cols.indexOf "timestamp") .na)).map
          (fun c => r.set (df.cols.indexOf "timestamp") c)) df.rows with
    | .error e => .error e
    | .ok rows => .ok { df with rows := rows }
  else .ok df

def dayNames : List String :=
  ["Monday", "Tuesday", "Wednesday", "Thursday", "Friday", "Saturday", "Sunday"]

def hourCell (cols : List String) (r : List Cell) : Cell :=
  match cellAt cols r "timestamp" with
  | .t t => .v (.num (((Int.emod t 86400).fdiv 3600 : Int) : ℚ))
  | _ => .na

def dowCell (cols : List String) (r : List Cell) : Cell :=
  match cellAt cols r "timestamp" with
  | .t t => .v (.str (dayNames.getD ((Int.emod (Int.fdiv t 86400 + 3) 7).toNat) ""))
  | _ => .na

def dateCell (cols : List String) (r : List Cell) : Cell :=
  match cellAt cols r "timestamp" with
  | .t t => .date (Int.fdiv t 86400)
  | _ => .na

/-- Model of `pd.DataFrame(data)` followed by `df.rename(columns=column_map)`:
the raw frame with recognized columns renamed to canonical metrics. -/
def rawFrame (recs : List (List (String × Value))) : DataF :=
  let rawCols := columnsOf recs
  { cols := rawCols.map (fun c => ((buildColMap rawCols).lookup c).getD c),
    rows := recs.map (fun f => rawCols.map (fun c => cellOfValue (f.lookup c))) }

/-- Model of `_load_room_data`: read, parse, normalize columns, parse timestamps,
derive time buckets, tag with the room id. -/
def loadRoomData (fs : FS) (room : String) : Except PyErr DataF :=
  match lookupFS fs room with
  | none => .error (.fileNotFound room)
  | some lines =>
    match parseLines lines with
    | .error e => .error e
    | .ok recs =>
      match withTimestamp (rawFrame recs) with
      | .error e => .error e
      | .ok df =>
        let df' :=
          if df.cols.contains "timestamp" then
            setCol (setCol (setCol df "hour" hourCell) "day_of_week" dowCell) "date" dateCell
          else df
        .ok (setCol df' "room" (fun _ _ => Cell.v (.str room)))

/-! ### Aggregation Engine (`_analyze_data`) -/

/-- A group key in the aggregation result: numeric (hour), string
(day name, room id, describe stat name), or calendar date. -/
inductive GKey where
  | n (x : ℚ)
  | s (x : String)
  | d (x : Int)
deriving DecidableEq, Repr

/-- A result column label: a metric, or a (metric, statistic) pair from
the room aggregation's column MultiIndex. -/
inductive CLabel where
  | single (m : String)
  | pair (m stat : String)
deriving DecidableEq, Repr

/-- A numeric value in the serialized result.  `rsqrt x` stands for the
irrational `√x` (an unrounded standard deviation whose variance `x` is
not a rational square); `rsqrt2 x` stands for `√x` rounded to 2
decimals.  `str` carries the object-describe `top` value. -/
inductive RVal where
  | num (x : ℚ)
  | rsqrt (x : ℚ)
  | rsqrt2 (x : ℚ)
  | str (s : String)
  | na
deriving DecidableEq, Repr

/-- The aggregation result of `to_json(orient='index')`: group key to
column label to value, in serialization order. -/
abbrev Table := List (GKey × List (CLabel × RVal))

/-- Round half to even (numpy/pandas rounding) to an integer. -/
def rhe (q : ℚ) : ℤ :=
  let f := ⌊q⌋
  let r := q - f
  if r < 1/2 then f else if 1/2 < r then f + 1 else if f % 2 = 0 then f else f + 1

/-- Model of `round(x, 2)` with numpy's half-to-even tie rule. -/
def round2 (q : ℚ) : ℚ := (rhe (q * 100) : ℚ) / 100

/-- Exact square root of a nonnegative rational, when it is rational. -/
def ratSqrt (q : ℚ) : Option ℚ :=
  if q < 0 then none
  else
    let n := q.num.toNat
    let d := q.den
    let sn := Nat.sqrt n
    let sd := Nat.sqrt d
    if sn * sn == n && sd * sd == d then some ((sn : ℚ) / (sd : ℚ)) else none

/-- Rounding `.round(2)` on a result value. -/
def roundRVal : RVal → RVal
  | .num x => .num (round2 x)
  | .rsqrt x => .rsqrt2 x
  | v => v

def roundTable (t : Table) : Table :=
  t.map (fun kv => (kv.1, kv.2.map (fun cv => (cv.1, roundRVal cv.2))))

/-- Numeric values of a column over the given rows (`NaN`-skipping, as
pandas aggregations do). -/
def numsOf (cols : List String) (rows : List (List Cell)) (c : String) : List ℚ :=
  rows.filterMap (fun r =>
    match cellAt cols r c with
    | .v (.num q) => some q
    | _ => none)

def meanOf (xs : List ℚ) : RVal :=
  if xs.isEmpty then .na else .num (xs.sum / xs.length)

def minOf (xs : List ℚ) : RVal :=
  match xs with
  | [] => .na
  | x :: rest => .num (rest.foldl min x)

def maxOf (xs : List ℚ) : RVal :=
  match xs with
  | [] => .na
  | x :: rest => .num (rest.foldl max x)

/-- Sample standard deviation (`ddof=1`): `NaN` for fewer than two
values; exact rational square roots are evaluated, others stay
symbolic. -/
def stdOf (xs : List ℚ) : RVal :=
  if xs.length < 2 then .na
  else
    let n : ℚ := xs.length
    let mu := xs.sum / n
    let v := (xs.map (fun x => (x - mu) * (x - mu))).sum / (n - 1)
    match ratSqrt v with
    | some r => .num r
    | none => .rsqrt v

/-- Stable structural insertion sort (ascending under `le`). -/
def insertSorted (le : α → α → Bool) (a : α) : List α → List α
  | [] => [a]
  | b :: rest => if le a b then a :: b :: rest else b :: insertSorted le a rest

def insertionSort (le : α → α → Bool) : List α → List α
  | [] => []
  | a :: rest => insertSorted le a (insertionSort le rest)

/-- Linear-interpolation quantile, as `DataFrame.describe` computes. -/
def quantileOf (xs : List ℚ) (p : ℚ) : RVal :=
  match insertionSort (fun a b => decide (a ≤ b)) xs with
  | [] => .na
  | sorted =>
    let n := sorted.length
    let pos := p * ((n : ℚ) - 1)
    let i := ⌊pos⌋.toNat
    let frac := pos - (i : ℚ)
    let lo := sorted.getD i 0
    if i + 1 < n then .num (lo + frac * (sorted.getD (i + 1) 0 - lo))
    else .num lo

/-- Group key carried by a cell, `none` for `NaN` keys (dropped by
`groupby`). -/
def keyOfCell : Cell → Option GKey
  | .v (.num q) => some (.n q)
  | .v (.str s) => some (.s s)
  | .date d => some (.d d)
  | _ => none

def keyLe (a b : GKey) : Bool :=
  match a, b with
  | .n x, .n y => decide (x ≤ y)
  | .s x, .s y => x ≤ y
  | .d x, .d y => decide (x ≤ y)
  | .n _, _ => true
  | _, .n _ => false
  | .s _, _ => true
  | _, .s _ => false

/-- Distinct group keys of a column in first-appearance order. -/
def distinctKeys (df : DataF) (keyCol : String) : List GKey :=
  (df.rows.filterMap (fun r => keyOfCell (cellAt df.cols r keyCol))).foldl
    (fun acc k => if k ∈ acc then acc else acc ++ [k]) []

/-- Ascending group-key order produced by `groupby` (sort=True). -/
def sortKeys (ks : List GKey) : List GKey :=
  insertionSort keyLe ks

def groupRows (df : DataF) (keyCol : String) (k : GKey) : List (List Cell) :=
  df.rows.filter (fun r => decide (keyOfCell (cellAt df.cols r keyCol) = some k))

/-- Model of `groupby(keyCol)[metrics].mean()`: `KeyError` if the key column is
absent. -/
def groupMeanE (df : DataF) (keyCol : String) (metrics : List String) :
    Except PyErr Table :=
  if df.cols.contains keyCol then
    .ok ((sortKeys (distinctKeys df keyCol)).map (fun k =>
      (k, metrics.map (fun m =>
        (CLabel.single m, meanOf (numsOf df.cols (groupRows df keyCol k) m))))))
  else .error (.keyError keyCol)

/-- Model of `groupby('room')[metrics].agg(['mean','min','max','std'])`. -/
def groupAggE (df : DataF) (metrics : List String) : Except PyErr Table :=
  if df.cols.contains "room" then
    .ok ((sortKeys (distinctKeys df "room")).map (fun k =>
      (k, metrics.flatMap (fun m =>
        let xs := numsOf df.cols (groupRows df "room" k) m
        [(CLabel.pair m "mean", meanOf xs),
         (CLabel.pair m "min", minOf xs),
         (CLabel.pair m "max", maxOf xs),
         (CLabel.pair m "std", stdOf xs)]))))
  else .error (.keyError "room")

/-- A column is numeric for `describe` when no cell holds a string,
datetime or date (missing values allowed). -/
def colNumeric (df : DataF) (c : String) : Bool :=
  df.rows.all (fun r =>
    match cellAt df.cols r c with
    | .v (.num _) => true
    | .na => true
    | _ => false)

def countOf (xs : List ℚ) : RVal := .num xs.length

/-- Non-missing cells of a column (for the object describe). -/
def objValsOf (cols : List String) (rows : List (List Cell)) (c : String) : List Cell :=
  rows.filterMap (fun r =>
    match cellAt cols r c with
    | .na => none
    | cell => some cell)

def rvalOfCell : Cell → RVal
  | .v (.num q) => .num q
  | .v (.str s) => .str s
  | _ => .na

def dedupCells (cs : List Cell) : List Cell :=
  cs.foldl (fun acc c => if c ∈ acc then acc else acc ++ [c]) []

/-- Most frequent value (first-seen on ties) and its frequency. -/
def topFreq (cs : List Cell) : RVal × RVal :=
  match dedupCells cs with
  | [] => (.na, .na)
  | u :: us =>
    let best := us.foldl
      (fun b c => if cs.count c > cs.count b then c else b) u
    (rvalOfCell best, .num (cs.count best))

def numericStats : List String :=
  ["count", "mean", "std", "min", "25%", "50%", "75%", "max"]

def numericStatOf (stat : String) (xs : List ℚ) : RVal :=
  if stat == "count" then countOf xs
  else if stat == "mean" then meanOf xs
  else if stat == "std" then stdOf xs
  else if stat == "min" then minOf xs
  else if stat == "25%" then quantileOf xs (1/4)
  else if stat == "50%" then quantileOf xs (1/2)
  else if stat == "75%" then quantileOf xs (3/4)
  else maxOf xs

/-- Model of `combined_df[['room'] + metrics].describe()`: numeric summary of the
numeric selected columns, or the object summary when none is numeric. -/
def describeE (df : DataF) (metrics : List String) : Except PyErr Table :=
  if df.cols.contains "room" && metrics.all (fun m => df.cols.contains m) then
    let sel := "room" :: metrics
    let numCols := sel.filter (fun c => colNumeric df c)
    if numCols.isEmpty then
      .ok (["count", "unique", "top", "freq"].map (fun stat =>
        (GKey.s stat, sel.map (fun c =>
          let vs := objValsOf df.cols df.rows c
          (CLabel.single c,
            if stat == "count" then RVal.num vs.length
            else if stat == "unique" then RVal.num (dedupCells vs).length
            else if stat == "top" then (topFreq vs).1
            else (topFreq vs).2)))))
    else
      .ok (numericStats.map (fun stat =>
        (GKey.s stat, numCols.map (fun c =>
          (CLabel.single c, numericStatOf stat (numsOf df.cols df.rows c))))))
  else .error (.keyError "room")

/-- Model of `pd.concat(all_data, ignore_index=True)`: outer union of columns in
first-appearance order, rows reindexed with `NaN` fill. -/
def concatDF (dfs : List DataF) : DataF :=
  let cols := dfs.foldl (fun acc df => addNames acc df.cols) []
  { cols := cols,
    rows := dfs.foldl (fun acc df =>
      acc ++ df.rows.map (fun r => cols.map (fun c => cellAt df.cols r c))) [] }

structure DateFilter where
  start_date : Option String
  end_date : Option String
deriving DecidableEq, Repr

/-- One bound of the date filter: parse the bound, then keep the rows
whose `timestamp` cell satisfies `cmp`; missing timestamps compare
false and are dropped. -/
def filterStep (df : DataF) (bound : String) (cmp : Int → Int → Bool) :
    Except PyErr DataF :=
  match parseTs bound with
  | none => .error (.tsParse bound)
  | some b =>
    if df.cols.contains "timestamp" then
      .ok { df with
            rows := df.rows.filter (fun r =>
              match cellAt df.cols r "timestamp" with
              | .t t => cmp t b
              | _ => false) }
    else .error (.keyError "timestamp")

/-- The date-range filter of `_analyze_data`: `start_date` keeps
`timestamp >= bound`, then `end_date` keeps `timestamp <= bound`. -/
def applyFilter (df : DataF) (f : Option DateFilter) : Except PyErr DataF :=
  match f with
  | none => .ok df
  | some fl =>
    let step1 :=
      match fl.start_date with
      | none => Except.ok df
      | some s => filterStep df s (fun t b => decide (b ≤ t))
    match step1 with
    | .error e => .error e
    | .ok df1 =>
      match fl.end_date with
      | none => .ok df1
      | some s => filterStep df1 s (fun t b => decide (t ≤ b))

/-! ### Request parameters and tool boundary -/

inductive RoomsSpec where
  | all
  | list (rooms : List String)
deriving DecidableEq, Repr

/-- The parsed JSON request object (absent keys are `none`). -/
structure Params where
  operation : Option String := none
  rooms : Option RoomsSpec := none
  metrics : Option (List String) := none
  group_by : Option String := none
  filter : Option DateFilter := none
  chart_type : Option String := none
deriving DecidableEq, Repr

def defaultRooms : List String := ["room_a", "room_b", "room_c", "room_d"]

def expandRooms : RoomsSpec → List String
  | .all => defaultRooms
  | .list rs => rs

/-- The room-loading loop: `FileNotFoundError` skips the room, any other
failure propagates. -/
def loadRooms (fs : FS) : List String → Except PyErr (List DataF)
  | [] => .ok []
  | r :: rest =>
    match loadRoomData fs r with
    | .error (.fileNotFound _) => loadRooms fs rest
    | .error e => .error e
    | .ok df => (loadRooms fs rest).map (df :: ·)

/-- The analysis output: a plain message, a serialized aggregation
table, a chart config, or the `load` operation's file listing. -/
inductive Out where
  | text (s : String)
  | json (t : Table)
  | chart (chartType : String) (data : Table) (title xAxis yAxis : String)
  | files (infos : List (String × String × List String × List (String × Value)))
deriving DecidableEq, Repr

/-- Load the requested rooms, report no data when none survived, and
apply the date filter; shared head of every `_analyze_data` branch. -/
def combinedStage (fs : FS) (roomsP : Option RoomsSpec) (filterP : Option DateFilter) :
    Except PyErr (Option DataF) :=
  match loadRooms fs (expandRooms (roomsP.getD .all)) with
  | .error e => .error e
  | .ok dfs =>
    if dfs.isEmpty then .ok none
    else (applyFilter (concatDF dfs) filterP).map some

def defaultMetrics : List String := ["temperature", "co2", "humidity"]

def availMetrics (df : DataF) (p : Params) : List String :=
  (p.metrics.getD defaultMetrics).filter (fun m => df.cols.contains m)

/-- Body of `_analyze_data` before its enclosing `try`: every raised exception
is an `Except.error`. -/
def analyzeBody (fs : FS) (p : Params) : Except PyErr Out :=
  match combinedStage fs p.rooms p.filter with
  | .error e => .error e
  | .ok none => .ok (.text "No data files found")
  | .ok (some df) =>
    let gb := p.group_by.getD "room"
    let avail := availMetrics df p
    if gb = "hour" then (groupMeanE df "hour" avail).map (fun t => .json (roundTable t))
    else if gb = "day" then (groupMeanE df "day_of_week" avail).map (fun t => .json (roundTable t))
    else if gb = "room" then (groupAggE df avail).map (fun t => .json (roundTable t))
    else if gb = "date" then (groupMeanE df "date" avail).map (fun t => .json (roundTable t))
    else (describeE df avail).map Out.json

/-- Model of `_analyze_data`: the `except` clause turns any exception into an
`Analysis error:` message. -/
def analyzeData (fs : FS) (p : Params) : Out :=
  match analyzeBody fs p with
  | .ok o => o
  | .error e => .text ("Analysis error: " ++ pyMsg e)

/-- Model of `str.title()` (ASCII): capitalize the first letter of each word. -/
def titleCase (s : String) : String :=
  (s.toList.foldl
    (fun acc c =>
      let prevAlpha := acc.2
      ((acc.1.push (if prevAlpha then c.toLower else c.toUpper)), c.isAlpha))
    ("", false)).1

/-- Model of `_create_chart`: reuses `_analyze_data`; a message result fails the
`json.loads` re-parse, an empty metrics list fails the y-axis index. -/
def createChart (fs : FS) (p : Params) : Out :=
  match analyzeData fs p with
  | .json t =>
    match (p.metrics.getD ["temperature"]).head? with
    | none => .text "Chart creation error: list index out of range"
    | some y =>
      .chart (p.chart_type.getD "line") t
        ("Air Quality Analysis - " ++ titleCase (p.group_by.getD "room"))
        (p.group_by.getD "room") y
  | _ => .text "Chart creation error: Expecting value"

/-- Model of `_load_data_info`: per room file, its name, id, raw columns and the
first record; a blank or malformed first line fails the whole scan. -/
def loadDataInfo (fs : FS) : Out :=
  let step := fs.foldlM
    (fun acc entry =>
      match entry.2.head? with
      | none => Except.ok acc
      | some (Line.record f) =>
        Except.ok (acc ++ [(entry.1 ++ ".ndjson", entry.1, f.map Prod.fst, f)])
      | some _ => Except.error PyErr.jsonDecode)
    ([] : List (String × String × List String × List (String × Value)))
  match step with
  | .ok infos => .files infos
  | .error e => .text ("Error loading data info: " ++ pyMsg e)

/-- The tool's parsed input string: empty, invalid JSON, or a request
object.  An input that is valid JSON but not an object fails the
dispatch's attribute access and follows the same `except` path as
invalid JSON, so `invalid` stands for both. -/
inductive ToolInput where
  | empty
  | invalid
  | params (p : Params)
deriving DecidableEq, Repr

/-- The body of `_run` inside its `try`: `json.loads` then dispatch. -/
def runBody (fs : FS) : ToolInput → Except PyErr Out
  | .empty => .ok (.text "")
  | .invalid => .error .jsonDecode
  | .params p =>
    match p.operation.getD "analyze" with
    | "load" => .ok (loadDataInfo fs)
    | "analyze" => .ok (analyzeData fs p)
    | "chart" => .ok (createChart fs p)
    | _ => .ok (.text "Unknown operation. Use 'load', 'analyze', or 'chart'.")

/-- Model of `_run`: the empty-input guard, then the `try/except` that converts
every exception into an `Error:` message. -/
def runTool (fs : FS) (inp : ToolInput) : Except PyErr Out :=
  match inp with
  | .empty => .ok (.text "Error: No input provided to data_analysis_tool")
  | _ =>
    match runBody fs inp with
    | .ok o => .ok o
    | .error e => .ok (.text ("Error: " ++ pyMsg e))

/-! ### Auxiliary predicates used by the verification -/

def isRecordLine : Line → Bool
  | .record _ => true
  | _ => false

/-- Does the whole room file parse: no malformed line, and (when a
timestamp column is identified) every timestamp value parses? -/
def roomTsOK (lines : List Line) : Bool :=
  match parseLines lines with
  | .error _ => false
  | .ok recs =>
    match withTimestamp (rawFrame recs) with
    | .ok _ => true
    | .error _ => false

/-- Every row carries the given room id in its `room` column. -/
def roomTagged (df : DataF) (room : String) : Bool :=
  df.rows.all (fun r => decide (cellAt df.cols r "room" = Cell.v (.str room)))

/-- Is the output a serialized aggregation (as opposed to a message)? -/
def isAggOut : Out → Bool
  | .json _ => true
  | _ => false

/-- The describe fallback of `_analyze_data` as a standalone pipeline:
load, no-data check, filter, then the whole-dataset descriptive
summary, with errors converted as the enclosing handler does. -/
def fallbackOut (fs : FS) (p : Params) : Out :=
  match combinedStage fs p.rooms p.filter with
  | .error e => .text ("Analysis error: " ++ pyMsg e)
  | .ok none => .text "No data files found"
  | .ok (some df) =>
    match describeE df (availMetrics df p) with
    | .error e => .text ("Analysis error: " ++ pyMsg e)
    | .ok t => .json t

/-- A result value already rounded to 2 decimals (`rsqrt2` is rounded
by construction; strings and missing values are not numeric). -/
def rvalRounded : RVal → Bool
  | .num x => round2 x == x
  | .rsqrt _ => false
  | _ => true

/-- Every numeric value of the table is rounded to 2 decimals. -/
def tableRounded (t : Table) : Bool :=
  t.all (fun kv => kv.2.all (fun cv => rvalRounded cv.2))

/-! ### Helper lemmas -/

lemma findFirstMatch_some (t : String) (cols : List String) (c : String)
    (h : findFirstMatch t cols = some c) :
    matchesSyn t c = true ∧
      ∃ pre post, cols = pre ++ c :: post ∧ ∀ c' ∈ pre, matchesSyn t c' = false := by
  induction cols with
  | nil => simp [findFirstMatch] at h
  | cons a rest ih =>
    cases hb : matchesSyn t a with
    | true =>
      rw [findFirstMatch, hb] at h
      simp only [if_true] at h
      cases h
      exact ⟨hb, [], rest, rfl, by simp⟩
    | false =>
      rw [findFirstMatch, hb] at h
      simp only [Bool.false_eq_true, if_false] at h
      obtain ⟨hc, pre, post, hsplit, hpre⟩ := ih h
      refine ⟨hc, a :: pre, post, by rw [hsplit]; rfl, ?_⟩
      intro c' hc'
      rcases List.mem_cons.mp hc' with h' | h'
      · rw [h']; exact hb
      · exact hpre c' h'

lemma findFirstMatch_none (t : String) (cols : List String) :
    findFirstMatch t cols = none ↔ ∀ c ∈ cols, matchesSyn t c = false := by
  induction cols with
  | nil => simp [findFirstMatch]
  | cons a rest ih =>
    cases hb : matchesSyn t a with
    | true =>
      rw [findFirstMatch, hb]
      simp only [if_true]
      constructor
      · intro h; cases h
      · intro h; rw [h a (List.mem_cons_self a rest)] at hb; cases hb
    | false =>
      rw [findFirstMatch, hb]
      simp only [Bool.false_eq_true, if_false, ih]
      constructor
      · intro h c hc
        rcases List.mem_cons.mp hc with h' | h'
        · rw [h']; exact hb
        · exact h c h'
      · intro h c hc; exact h c (List.mem_cons_of_mem a hc)

lemma parseLines_of_malformed (lines : List Line) (hm : Line.malformed ∈ lines) :
    parseLines lines = .error .jsonDecode := by
  induction lines with
  | nil => cases hm
  | cons a rest ih =>
    cases a with
    | blank =>
      rw [parseLines]
      cases hm with
      | tail _ h => exact ih h
    | malformed => rfl
    | record f =>
      cases hm with
      | tail _ h => rw [parseLines, ih h]; rfl

/-! ### Claim C7 -/

/-- C7: for every canonical metric and raw column list, the Normalizer
returns the first column (in raw order) whose lower-cased form equals a
lower-cased synonym of the metric, returns no match otherwise, and the
match test depends on a column's name only through its lower-cased form
(so all casing variants resolve alike). -/
theorem normalizer_first_case_insensitive_match (cols : List String) (t : String) :
    (∀ c, normalizeColumnName cols t = some c →
        matchesSyn t c = true ∧
        ∃ pre post, cols = pre ++ c :: post ∧ ∀ c' ∈ pre, matchesSyn t c' = false)
    ∧ (normalizeColumnName cols t = none ↔ ∀ c ∈ cols, matchesSyn t c = false)
    ∧ (∀ c₁ c₂, pyLower c₁ = pyLower c₂ → matchesSyn t c₁ = matchesSyn t c₂) := by
  refine ⟨fun c h => findFirstMatch_some t cols c h, findFirstMatch_none t cols, ?_⟩
  intro c₁ c₂ h
  unfold matchesSyn
  rw [h]

/-- Witness for C7 at a concrete casing variant. -/
theorem normalizer_first_case_insensitive_match_witness :
    matchesSyn "co2" "CO2 (PPM)" = matchesSyn "co2" "co2 (ppm)" ∧
      matchesSyn "co2" "co2 (ppm)" = true :=
  ⟨(normalizer_first_case_insensitive_match [] "co2").2.2 "CO2 (PPM)" "co2 (ppm)" (by decide),
   by decide⟩

/-! ### Claim C10 -/

/-- C10: a raw column literally named "humidity" (any casing) never
maps to the canonical humidity metric, because the humidity synonym
list is exactly ["rh", "Relative Humidity (%)", "RH"]; by contrast the
canonical names co2 and timestamp are their own synonyms. -/
theorem humidity_literal_never_matches :
    (∀ c : String, pyLower c = "humidity" → normalizeColumnName [c] "humidity" = none)
    ∧ columnMappings.lookup "humidity" = some ["rh", "Relative Humidity (%)", "RH"]
    ∧ matchesSyn "co2" "co2" = true ∧ matchesSyn "timestamp" "timestamp" = true := by
  refine ⟨?_, by decide, by decide, by decide⟩
  intro c h
  have hm : matchesSyn "humidity" c = false := by
    unfold matchesSyn
    rw [h]
    decide
  simp [normalizeColumnName, findFirstMatch, hm]

/-- Witness for C10 at the literal column name "Humidity". -/
theorem humidity_literal_never_matches_witness :
    normalizeColumnName ["Humidity"] "humidity" = none :=
  humidity_literal_never_matches.1 "Humidity" (by decide)

/-! ### Claim C8 -/

/-- C8: a room file with a non-blank, non-JSON line fails to load as a
whole; no dataset of the surrounding valid lines is produced. -/
theorem malformed_line_fails_whole_load (fs : FS) (room : String) (lines : List Line)
    (h : lookupFS fs room = some lines) (hm : Line.malformed ∈ lines) :
    loadRoomData fs room = .error PyErr.jsonDecode := by
  simp only [loadRoomData, h, parseLines_of_malformed lines hm]

/-- Witness for C8: a valid line before the malformed one does not
survive. -/
theorem malformed_line_fails_whole_load_witness :
    loadRoomData [("room_a", [Line.record [("co2", Value.num 400)], Line.malformed])]
      "room_a" = .error PyErr.jsonDecode :=
  malformed_line_fails_whole_load _ "room_a" _ rfl (by decide)

/-! ### Claim C4 -/

/-- C4: the tool's run operation never raises: for every input it
returns a result, and every internal failure of the dispatch body is
converted into a returned `Error:` message string. -/
theorem run_never_raises (fs : FS) (inp : ToolInput) :
    (∃ o, runTool fs inp = .ok o)
    ∧ ∀ e, runBody fs inp = .error e →
        runTool fs inp = .ok (.text ("Error: " ++ pyMsg e)) := by
  constructor
  · cases inp with
    | empty => exact ⟨_, rfl⟩
    | invalid =>
      cases hb : runBody fs ToolInput.invalid with
      | ok o => exact ⟨o, by simp only [runTool, hb]⟩
      | error e => exact ⟨Out.text ("Error: " ++ pyMsg e), by simp only [runTool, hb]⟩
    | params p =>
      cases hb : runBody fs (ToolInput.params p) with
      | ok o => exact ⟨o, by simp only [runTool, hb]⟩
      | error e => exact ⟨Out.text ("Error: " ++ pyMsg e), by simp only [runTool, hb]⟩
  · intro e he
    cases inp with
    | empty => simp [runBody] at he
    | invalid => simp only [runTool, he]
    | params p => simp only [runTool, he]

/-- Witness for C4: invalid request JSON becomes an error string. -/
theorem run_never_raises_witness :
    runTool [] ToolInput.invalid = .ok (.text ("Error: " ++ pyMsg PyErr.jsonDecode)) :=
  (run_never_raises [] ToolInput.invalid).2 PyErr.jsonDecode rfl

lemma mapExcept_ok_length {α β : Type} {f : α → Except PyErr β} :
    ∀ (l : List α) (l' : List β), mapExcept f l = .ok l' → l'.length = l.length := by
  intro l
  induction l with
  | nil => intro l' h; cases h; rfl
  | cons a rest ih =>
    intro l' h
    rw [mapExcept] at h
    cases hf : f a with
    | error e => rw [hf] at h; cases h
    | ok b =>
      rw [hf] at h
      cases hr : mapExcept f rest with
      | error e => rw [hr] at h; cases h
      | ok bs =>
        rw [hr] at h
        simp only [Except.map] at h
        cases h
        simp [ih bs hr]

lemma mapExcept_ok_mem {α β : Type} {f : α → Except PyErr β} :
    ∀ (l : List α) (l' : List β), mapExcept f l = .ok l' →
      ∀ b ∈ l', ∃ a ∈ l, f a = .ok b := by
  intro l
  induction l with
  | nil => intro l' h b hb; cases h; cases hb
  | cons a rest ih =>
    intro l' h b hb
    rw [mapExcept] at h
    cases hf : f a with
    | error e => rw [hf] at h; cases h
    | ok b0 =>
      rw [hf] at h
      cases hr : mapExcept f rest with
      | error e => rw [hr] at h; cases h
      | ok bs =>
        rw [hr] at h
        simp only [Except.map] at h
        cases h
        rcases List.mem_cons.mp hb with h' | h'
        · exact ⟨a, List.mem_cons_self a rest, by rw [h']; exact hf⟩
        · obtain ⟨a', ha', hfa'⟩ := ih bs hr b h'
          exact ⟨a', List.mem_cons_of_mem a ha', hfa'⟩

lemma parseLines_ok_length :
    ∀ (lines : List Line) (recs : List (List (String × Value))),
      parseLines lines = .ok recs → recs.length = lines.countP isRecordLine := by
  intro lines
  induction lines with
  | nil => intro recs h; cases h; rfl
  | cons a rest ih =>
    intro recs h
    cases a with
    | blank =>
      rw [parseLines] at h
      rw [List.countP_cons]
      simp [isRecordLine, ih recs h]
    | malformed => rw [parseLines] at h; cases h
    | record f =>
      rw [parseLines] at h
      cases hr : parseLines rest with
      | error e => rw [hr] at h; cases h
      | ok rs =>
        rw [hr] at h
        simp only [Except.map] at h
        cases h
        rw [List.countP_cons]
        simp [isRecordLine, ih rs hr]

lemma setCol_rows_length (df : DataF) (name : String) (mk : List String → List Cell → Cell) :
    (setCol df name mk).rows.length = df.rows.length := by
  unfold setCol
  by_cases h : df.cols.contains name
  · rw [if_pos h]; simp
  · rw [if_neg h]; simp

lemma setCol_row_lengths (df : DataF) (name : String) (mk : List String → List Cell → Cell)
    (hl : ∀ r ∈ df.rows, r.length = df.cols.length) :
    ∀ r ∈ (setCol df name mk).rows, r.length = (setCol df name mk).cols.length := by
  unfold setCol
  by_cases h : df.cols.contains name
  · rw [if_pos h]
    intro r hr
    obtain ⟨r0, hr0, rfl⟩ := List.mem_map.mp hr
    simp [hl r0 hr0]
  · rw [if_neg h]
    intro r hr
    obtain ⟨r0, hr0, rfl⟩ := List.mem_map.mp hr
    simp [hl r0 hr0]

lemma getD_set_self (l : List Cell) (i : Nat) (a d : Cell) (h : i < l.length) :
    (l.set i a).getD i d = a := by
  simp [List.getD, List.getElem?_set_self', h]

lemma getD_append_len (l : List Cell) (a d : Cell) :
    (l ++ [a]).getD l.length d = a := by
  induction l with
  | nil => rfl
  | cons x xs _ => simp

lemma indexOf_append_self (cols : List String) (name : String) (h : ¬ name ∈ cols) :
    (cols ++ [name]).indexOf name = cols.length := by
  induction cols with
  | nil => simp [List.indexOf_cons]
  | cons a rest ih =>
    have hne : (a == name) = false := by
      simp only [beq_eq_false_iff_ne, ne_eq]
      exact fun he => h (he ▸ List.mem_cons_self a rest)
    rw [List.cons_append, List.indexOf_cons, hne]
    simp [ih (fun hm => h (List.mem_cons_of_mem a hm))]

lemma setCol_const_tag (df : DataF) (name : String) (c : Cell)
    (hl : ∀ r ∈ df.rows, r.length = df.cols.length) :
    ∀ r ∈ (setCol df name (fun _ _ => c)).rows,
      cellAt (setCol df name (fun _ _ => c)).cols r name = c := by
  unfold setCol
  by_cases h : df.cols.contains name
  · rw [if_pos h]
    intro r hr
    obtain ⟨r0, hr0, rfl⟩ := List.mem_map.mp hr
    have hmem : name ∈ df.cols := List.elem_iff.mp h
    have hi : df.cols.indexOf name < df.cols.length := List.indexOf_lt_length.mpr hmem
    unfold cellAt
    exact getD_set_self _ _ _ _ (by rw [hl r0 hr0]; exact hi)
  · rw [if_neg h]
    intro r hr
    obtain ⟨r0, hr0, rfl⟩ := List.mem_map.mp hr
    have hmem : ¬ name ∈ df.cols := fun hm => h (List.elem_iff.mpr hm)
    unfold cellAt
    rw [indexOf_append_self _ _ hmem, ← hl r0 hr0]
    exact getD_append_len r0 c Cell.na

lemma rawFrame_row_lengths (recs : List (List (String × Value))) :
    ∀ r ∈ (rawFrame recs).rows, r.length = (rawFrame recs).cols.length := by
  intro r hr
  dsimp only [rawFrame] at hr ⊢
  obtain ⟨f, hf, rfl⟩ := List.mem_map.mp hr
  simp

lemma rawFrame_rows_count (recs : List (List (String × Value))) :
    (rawFrame recs).rows.length = recs.length := by
  dsimp only [rawFrame]
  simp

lemma withTimestamp_ok (df df' : DataF) (h : withTimestamp df = .ok df') :
    df'.cols = df.cols ∧ df'.rows.length = df.rows.length ∧
      ∀ r' ∈ df'.rows, ∃ r ∈ df.rows, r'.length = r.length := by
  unfold withTimestamp at h
  split at h
  · split at h
    · cases h
    · rename_i rows hm
      cases h
      refine ⟨rfl, mapExcept_ok_length _ _ hm, ?_⟩
      intro r' hr'
      obtain ⟨r, hr, hf⟩ := mapExcept_ok_mem _ _ hm r' hr'
      cases hp : parseTsCell (r.getD (df.cols.indexOf "timestamp") Cell.na) with
      | error e => rw [hp] at hf; simp [Except.map] at hf
      | ok c =>
        rw [hp] at hf
        simp only [Except.map] at hf
        cases hf
        exact ⟨r, hr, by simp⟩
  · cases h
    exact ⟨rfl, rfl, fun r' hr' => ⟨r', hr', rfl⟩⟩

/-! ### Claim C9 -/

/-- C9 (amended): a room file whose non-blank lines are all valid JSON
(blank lines skipped) and whose timestamp values, when a timestamp
column is identified, all parse, loads to a dataset with exactly one
record per valid non-blank line, each tagged with the room id. -/
theorem load_yields_n_tagged_records (fs : FS) (room : String) (lines : List Line)
    (h : lookupFS fs room = some lines) (hts : roomTsOK lines = true) :
    ∃ df, loadRoomData fs room = .ok df ∧
      df.rows.length = lines.countP isRecordLine ∧ roomTagged df room = true := by
  unfold roomTsOK at hts
  cases hpl : parseLines lines with
  | error e => rw [hpl] at hts; simp at hts
  | ok recs =>
    rw [hpl] at hts
    simp only at hts
    cases hwt : withTimestamp (rawFrame recs) with
    | error e => rw [hwt] at hts; simp at hts
    | ok df1 =>
      obtain ⟨hcols, hlen, hrl⟩ := withTimestamp_ok _ _ hwt
      have hl1 : ∀ r ∈ df1.rows, r.length = df1.cols.length := by
        intro r hr
        obtain ⟨r0, hr0, he⟩ := hrl r hr
        rw [he, hcols]
        exact rawFrame_row_lengths recs r0 hr0
      set df2 := (if df1.cols.contains "timestamp" then
            setCol (setCol (setCol df1 "hour" hourCell) "day_of_week" dowCell) "date" dateCell
          else df1) with hdf2
      have hl2 : ∀ r ∈ df2.rows, r.length = df2.cols.length := by
        rw [hdf2]
        by_cases hc : df1.cols.contains "timestamp"
        · rw [if_pos hc]
          exact setCol_row_lengths _ _ _ (setCol_row_lengths _ _ _ (setCol_row_lengths _ _ _ hl1))
        · rw [if_neg hc]; exact hl1
      have hcnt : df2.rows.length = df1.rows.length := by
        rw [hdf2]
        by_cases hc : df1.cols.contains "timestamp"
        · rw [if_pos hc, setCol_rows_length, setCol_rows_length, setCol_rows_length]
        · rw [if_neg hc]
      refine ⟨setCol df2 "room" (fun _ _ => Cell.v (.str room)), ?_, ?_, ?_⟩
      · simp only [loadRoomData, h, hpl, hwt, ← hdf2]
      · rw [setCol_rows_length, hcnt, hlen, rawFrame_rows_count]
        exact parseLines_ok_length lines recs hpl
      · unfold roomTagged
        rw [List.all_eq_true]
        intro r hr
        rw [decide_eq_true_eq]
        exact setCol_const_tag df2 "room" _ hl2 r hr

/-- Witness for C9 at a concrete two-record file with a blank line. -/
theorem load_yields_n_tagged_records_witness :
    ∃ df,
      loadRoomData
        [("room_a",
          [Line.record [("timestamp", Value.str "2024-01-01T00:00:00"), ("co2", Value.num 400)],
           Line.blank,
           Line.record [("co2", Value.num 500)]])] "room_a" = .ok df ∧
      df.rows.length =
        [Line.record [("timestamp", Value.str "2024-01-01T00:00:00"), ("co2", Value.num 400)],
         Line.blank,
         Line.record [("co2", Value.num 500)]].countP isRecordLine ∧
      roomTagged df "room_a" = true :=
  load_yields_n_tagged_records _ "room_a" _ rfl (by decide)

/-- Counterexample to C9 as stated: one valid non-blank JSON line whose
timestamp value does not parse; the load fails instead of producing a
one-record dataset. -/
theorem load_unparseable_timestamp_cex :
    loadRoomData [("room_a", [Line.record [("timestamp", Value.str "not-a-date")]])]
      "room_a" = .error (PyErr.tsParse "not-a-date") := by
  rfl

/-! ### Claim C1 -/

/-- C1 (amended): with `start_date = end_date = D` both bounds parse to
midnight of D, so filtering retains exactly the records whose timestamp
equals midnight of D: the start bound is inclusive at full timestamp
granularity, but the end bound cuts off every record strictly after
midnight of D, so records at a later time of day on D are excluded, as
are records of adjacent dates. -/
theorem same_day_filter_keeps_midnight_only (df : DataF) (D : String) (m : Int)
    (hD : parseTs D = some m) (hcol : df.cols.contains "timestamp" = true) :
    applyFilter df (some { start_date := some D, end_date := some D }) =
      .ok { cols := df.cols,
            rows := df.rows.filter (fun r =>
              match cellAt df.cols r "timestamp" with
              | .t t => decide (t = m)
              | _ => false) } := by
  simp only [applyFilter, filterStep, hD, hcol, if_true]
  rw [List.filter_filter]
  congr 2
  apply List.filter_congr
  intro r _
  cases cellAt df.cols r "timestamp" with
  | t t =>
    rw [← Bool.decide_and, decide_eq_decide]
    omega
  | v x => rfl
  | date d => rfl
  | na => rfl

/-- Witness for C1 (amended) at a concrete frame with records at 00:00
and 01:00 of the filtered day. -/
theorem same_day_filter_keeps_midnight_only_witness :
    parseTs "2024-01-02" = some 1704153600 ∧
      applyFilter { cols := ["timestamp"], rows := [[Cell.t 1704153600], [Cell.t 1704157200]] }
        (some { start_date := some "2024-01-02", end_date := some "2024-01-02" }) =
      .ok { cols := ["timestamp"],
            rows := [[Cell.t 1704153600], [Cell.t 1704157200]].filter (fun r =>
              match cellAt ["timestamp"] r "timestamp" with
              | .t t => decide (t = 1704153600)
              | _ => false) } :=
  ⟨rfl, same_day_filter_keeps_midnight_only _ "2024-01-02" 1704153600 rfl rfl⟩

/-- Counterexample to C1 as stated: with `start = end = 2024-01-02`, the
record at 01:00 on 2024-01-02 is excluded; only the midnight record
survives, so the result has no hour-1 group although that record's
calendar date equals the filtered date. -/
theorem same_day_filter_excludes_intraday_cex :
    analyzeData
      [("room_a",
        [Line.record [("timestamp", Value.str "2024-01-02T00:00:00"), ("co2", Value.num 400)],
         Line.record [("timestamp", Value.str "2024-01-02T01:00:00"), ("co2", Value.num 500)],
         Line.record [("timestamp", Value.str "2024-01-03T00:00:00"), ("co2", Value.num 600)]])]
      { rooms := some (.list ["room_a"]), metrics := some ["co2"], group_by := some "hour",
        filter := some { start_date := some "2024-01-02", end_date := some "2024-01-02" } } =
      Out.json [(GKey.n 0, [(CLabel.single "co2", RVal.num 400)])] ∧
    ([(GKey.n 0, [(CLabel.single "co2", RVal.num 400)])] : Table).all
      (fun kv => decide (kv.1 ≠ GKey.n 1)) = true := by
  constructor
  · have h1 : analyzeData
        [("room_a",
          [Line.record [("timestamp", Value.str "2024-01-02T00:00:00"), ("co2", Value.num 400)],
           Line.record [("timestamp", Value.str "2024-01-02T01:00:00"), ("co2", Value.num 500)],
           Line.record [("timestamp", Value.str "2024-01-03T00:00:00"), ("co2", Value.num 600)]])]
        { rooms := some (.list ["room_a"]), metrics := some ["co2"], group_by := some "hour",
          filter := some { start_date := some "2024-01-02", end_date := some "2024-01-02" } } =
        Out.json (roundTable [(GKey.n 0, [(CLabel.single "co2", meanOf [(400 : ℚ)])])]) := by
      rfl
    rw [h1]
    norm_num [roundTable, roundRVal, meanOf, round2, rhe]
  · decide

/-! ### Claims C2 and C3 -/

lemma loadRoomData_missing (fs : FS) (r : String) (h : lookupFS fs r = none) :
    loadRoomData fs r = .error (.fileNotFound r) := by
  simp only [loadRoomData, h]

lemma loadRooms_cons_missing (fs : FS) (r : String) (rest : List String)
    (h : lookupFS fs r = none) :
    loadRooms fs (r :: rest) = loadRooms fs rest := by
  rw [loadRooms, loadRoomData_missing fs r h]

lemma loadRooms_all_missing (fs : FS) (rs : List String)
    (h : ∀ r ∈ rs, lookupFS fs r = none) : loadRooms fs rs = .ok [] := by
  induction rs with
  | nil => rfl
  | cons a rest ih =>
    rw [loadRooms_cons_missing fs a rest (h a (List.mem_cons_self a rest))]
    exact ih (fun r hr => h r (List.mem_cons_of_mem a hr))

lemma analyzeData_congr (fs : FS) (p1 p2 : Params)
    (hmet : p1.metrics = p2.metrics) (hgb : p1.group_by = p2.group_by)
    (hfl : p1.filter = p2.filter)
    (hload : loadRooms fs (expandRooms (p1.rooms.getD RoomsSpec.all)) =
      loadRooms fs (expandRooms (p2.rooms.getD RoomsSpec.all))) :
    analyzeData fs p1 = analyzeData fs p2 := by
  unfold analyzeData analyzeBody combinedStage availMetrics
  rw [hload, hmet, hgb, hfl]

lemma parseLines_error_inv (lines : List Line) (e : PyErr)
    (h : parseLines lines = .error e) : e = .jsonDecode := by
  induction lines with
  | nil => cases h
  | cons a rest ih =>
    cases a with
    | blank => rw [parseLines] at h; exact ih h
    | malformed => rw [parseLines] at h; cases h; rfl
    | record f =>
      rw [parseLines] at h
      cases hr : parseLines rest with
      | error e' =>
        rw [hr] at h
        simp only [Except.map] at h
        cases h
        exact ih hr
      | ok rs =>
        rw [hr] at h
        simp only [Except.map] at h
        cases h

lemma mapExcept_error_inv {α β : Type} {f : α → Except PyErr β} :
    ∀ (l : List α) (e : PyErr), mapExcept f l = .error e → ∃ a ∈ l, f a = .error e := by
  intro l
  induction l with
  | nil => intro e h; cases h
  | cons a rest ih =>
    intro e h
    rw [mapExcept] at h
    cases hf : f a with
    | error e' =>
      rw [hf] at h
      cases h
      exact ⟨a, List.mem_cons_self a rest, hf⟩
    | ok b =>
      rw [hf] at h
      cases hr : mapExcept f rest with
      | error e' =>
        rw [hr] at h
        simp only [Except.map] at h
        cases h
        obtain ⟨a', ha', hg⟩ := ih e hr
        exact ⟨a', List.mem_cons_of_mem a ha', hg⟩
      | ok bs =>
        rw [hr] at h
        simp only [Except.map] at h
        cases h

lemma parseTsCell_error_inv (c : Cell) (e : PyErr) (h : parseTsCell c = .error e) :
    ∃ s, e = .tsParse s := by
  cases c with
  | v x =>
    cases x with
    | num q => simp [parseTsCell] at h
    | str s =>
      rw [parseTsCell] at h
      cases hp : parseTs s with
      | none => rw [hp] at h; cases h; exact ⟨s, rfl⟩
      | some t => rw [hp] at h; cases h
    | null => simp [parseTsCell] at h
  | t ts => simp [parseTsCell] at h
  | date d => simp [parseTsCell] at h
  | na => simp [parseTsCell] at h

lemma withTimestamp_error_inv (df : DataF) (e : PyErr)
    (h : withTimestamp df = .error e) : ∃ s, e = .tsParse s := by
  unfold withTimestamp at h
  split at h
  · split at h
    · rename_i e' hm
      cases h
      obtain ⟨r, _, hf⟩ := mapExcept_error_inv _ _ hm
      cases hp : parseTsCell (r.getD (df.cols.indexOf "timestamp") Cell.na) with
      | error e2 =>
        rw [hp] at hf
        simp only [Except.map] at hf
        cases hf
        exact parseTsCell_error_inv _ _ hp
      | ok c =>
        rw [hp] at hf
        simp only [Except.map] at hf
        cases hf
    · cases h
  · cases h

lemma loadRoomData_fnf_inv (fs : FS) (r r' : String)
    (h : loadRoomData fs r = .error (.fileNotFound r')) : lookupFS fs r = none := by
  cases hlk : lookupFS fs r with
  | none => rfl
  | some lines =>
    exfalso
    simp only [loadRoomData, hlk] at h
    cases hpl : parseLines lines with
    | error e =>
      rw [hpl] at h
      cases h
      exact PyErr.noConfusion (parseLines_error_inv lines _ hpl)
    | ok recs =>
      simp only [hpl] at h
      cases hwt : withTimestamp (rawFrame recs) with
      | error e =>
        rw [hwt] at h
        cases h
        obtain ⟨s, hs⟩ := withTimestamp_error_inv _ _ hwt
        exact PyErr.noConfusion hs
      | ok df =>
        rw [hwt] at h
        cases h

lemma loadRooms_error_of_malformed (fs : FS) :
    ∀ (rooms : List String) (r : String), r ∈ rooms →
      ∀ lines, lookupFS fs r = some lines → Line.malformed ∈ lines →
      ∃ e, loadRooms fs rooms = .error e := by
  intro rooms
  induction rooms with
  | nil => intro r hr; cases hr
  | cons a rest ih =>
    intro r hr lines hlk hm
    cases hd : loadRoomData fs a with
    | error e =>
      cases e with
      | fileNotFound r' =>
        have hna : lookupFS fs a = none := loadRoomData_fnf_inv fs a r' hd
        have hne : r ≠ a := fun he => by rw [he, hna] at hlk; cases hlk
        have hrr : r ∈ rest := by
          rcases List.mem_cons.mp hr with h' | h'
          · exact absurd h' hne
          · exact h'
        obtain ⟨e', he'⟩ := ih r hrr lines hlk hm
        exact ⟨e', by rw [loadRooms, hd]; exact he'⟩
      | jsonDecode => exact ⟨.jsonDecode, by rw [loadRooms, hd]⟩
      | tsParse s => exact ⟨.tsParse s, by rw [loadRooms, hd]⟩
      | keyError k => exact ⟨.keyError k, by rw [loadRooms, hd]⟩
    | ok df =>
      have hne : r ≠ a := by
        intro he
        have hload : loadRoomData fs a = .error .jsonDecode := by
          simp only [loadRoomData, (he ▸ hlk : lookupFS fs a = some lines),
            parseLines_of_malformed lines hm]
        rw [hload] at hd
        cases hd
      have hrr : r ∈ rest := by
        rcases List.mem_cons.mp hr with h' | h'
        · exact absurd h' hne
        · exact h'
      obtain ⟨e', he'⟩ := ih r hrr lines hlk hm
      refine ⟨e', ?_⟩
      rw [loadRooms, hd, he']
      rfl

lemma loadRooms_middle_missing (fs : FS) (r : String) (h : lookupFS fs r = none) :
    ∀ pre rest, loadRooms fs (pre ++ r :: rest) = loadRooms fs (pre ++ rest) := by
  intro pre
  induction pre with
  | nil => intro rest; exact loadRooms_cons_missing fs r rest h
  | cons a pre' ih =>
    intro rest
    rw [List.cons_append, List.cons_append, loadRooms, loadRooms, ih rest]

/-- C2: `rooms = "all"` expands to the fixed four-room default list; a
requested room with no backing file is silently skipped wherever it
appears in the room list, the result being exactly that of the
remaining rooms; and when every default room is missing the result is
the no-data message, not an aggregation. -/
theorem rooms_all_expansion_and_skip (fs : FS)
    (op : Option String) (ms : Option (List String)) (gb : Option String)
    (fl : Option DateFilter) (ct : Option String) :
    (analyzeData fs ⟨op, some RoomsSpec.all, ms, gb, fl, ct⟩ =
       analyzeData fs ⟨op, some (RoomsSpec.list defaultRooms), ms, gb, fl, ct⟩)
    ∧ (∀ pre r rest, lookupFS fs r = none →
        analyzeData fs ⟨op, some (RoomsSpec.list (pre ++ r :: rest)), ms, gb, fl, ct⟩ =
        analyzeData fs ⟨op, some (RoomsSpec.list (pre ++ rest)), ms, gb, fl, ct⟩)
    ∧ ((∀ r ∈ defaultRooms, lookupFS fs r = none) →
        analyzeData fs ⟨op, some RoomsSpec.all, ms, gb, fl, ct⟩ =
          Out.text "No data files found") := by
  refine ⟨rfl, ?_, ?_⟩
  · intro pre r rest h
    apply analyzeData_congr fs
    · rfl
    · rfl
    · rfl
    · show loadRooms fs (pre ++ r :: rest) = loadRooms fs (pre ++ rest)
      exact loadRooms_middle_missing fs r h pre rest
  · intro h
    unfold analyzeData analyzeBody combinedStage
    rw [show expandRooms ((Params.mk op (some RoomsSpec.all) ms gb fl ct).rooms.getD
          RoomsSpec.all) = defaultRooms from rfl,
        loadRooms_all_missing fs defaultRooms h]
    rfl

/-- Witness for C2: among the four default rooms only `room_b` has a
file; skipping `room_a` at the head and `room_c`, `room_d` behind the
surviving `room_b` reduces the `"all"` request to `room_b` alone, whose
data yields the aggregation; and an empty data folder yields the
no-data message. -/
theorem rooms_all_expansion_and_skip_witness :
    (analyzeData [("room_b", [Line.record [("co2", Value.num 600)]])]
        ⟨none, some RoomsSpec.all, some ["co2"], some "room", none, none⟩ =
      analyzeData [("room_b", [Line.record [("co2", Value.num 600)]])]
        ⟨none, some (RoomsSpec.list ["room_b"]), some ["co2"], some "room", none, none⟩)
    ∧ analyzeData [("room_b", [Line.record [("co2", Value.num 600)]])]
        ⟨none, some RoomsSpec.all, some ["co2"], some "room", none, none⟩ =
      Out.json [(GKey.s "room_b",
        [(CLabel.pair "co2" "mean", RVal.num 600), (CLabel.pair "co2" "min", RVal.num 600),
         (CLabel.pair "co2" "max", RVal.num 600), (CLabel.pair "co2" "std", RVal.na)])]
    ∧ analyzeData [] ⟨none, some RoomsSpec.all, none, none, none, none⟩ =
        Out.text "No data files found" := by
  have hskip : analyzeData [("room_b", [Line.record [("co2", Value.num 600)]])]
      ⟨none, some RoomsSpec.all, some ["co2"], some "room", none, none⟩ =
      analyzeData [("room_b", [Line.record [("co2", Value.num 600)]])]
        ⟨none, some (RoomsSpec.list ["room_b"]), some ["co2"], some "room", none, none⟩ :=
    calc
      analyzeData [("room_b", [Line.record [("co2", Value.num 600)]])]
          ⟨none, some RoomsSpec.all, some ["co2"], some "room", none, none⟩ =
          analyzeData [("room_b", [Line.record [("co2", Value.num 600)]])]
            ⟨none, some (RoomsSpec.list defaultRooms), some ["co2"], some "room", none, none⟩ :=
        (rooms_all_expansion_and_skip [("room_b", [Line.record [("co2", Value.num 600)]])]
          none (some ["co2"]) (some "room") none none).1
      _ = analyzeData [("room_b", [Line.record [("co2", Value.num 600)]])]
            ⟨none, some (RoomsSpec.list ["room_b", "room_c", "room_d"]), some ["co2"],
             some "room", none, none⟩ :=
        (rooms_all_expansion_and_skip [("room_b", [Line.record [("co2", Value.num 600)]])]
          none (some ["co2"]) (some "room") none none).2.1
          [] "room_a" ["room_b", "room_c", "room_d"] rfl
      _ = analyzeData [("room_b", [Line.record [("co2", Value.num 600)]])]
            ⟨none, some (RoomsSpec.list ["room_b", "room_d"]), some ["co2"],
             some "room", none, none⟩ :=
        (rooms_all_expansion_and_skip [("room_b", [Line.record [("co2", Value.num 600)]])]
          none (some ["co2"]) (some "room") none none).2.1
          ["room_b"] "room_c" ["room_d"] rfl
      _ = analyzeData [("room_b", [Line.record [("co2", Value.num 600)]])]
            ⟨none, some (RoomsSpec.list ["room_b"]), some ["co2"], some "room", none, none⟩ :=
        (rooms_all_expansion_and_skip [("room_b", [Line.record [("co2", Value.num 600)]])]
          none (some ["co2"]) (some "room") none none).2.1
          ["room_b"] "room_d" [] rfl
  refine ⟨hskip, ?_, (rooms_all_expansion_and_skip [] none none none none none).2.2 (by decide)⟩
  rw [hskip]
  have h1 : analyzeData [("room_b", [Line.record [("co2", Value.num 600)]])]
      ⟨none, some (RoomsSpec.list ["room_b"]), some ["co2"], some "room", none, none⟩ =
      Out.json (roundTable [(GKey.s "room_b",
        [(CLabel.pair "co2" "mean", meanOf [(600 : ℚ)]),
         (CLabel.pair "co2" "min", minOf [(600 : ℚ)]),
         (CLabel.pair "co2" "max", maxOf [(600 : ℚ)]),
         (CLabel.pair "co2" "std", stdOf [(600 : ℚ)])])]) := by rfl
  rw [h1]
  norm_num [roundTable, roundRVal, meanOf, minOf, maxOf, stdOf, round2, rhe]

/-- C3 (amended): a missing room file is absorbed (the room is skipped),
but a parse failure of any requested room's data is not: it aborts the
whole request, which returns an `Analysis error:` message instead of an
aggregation computed from the remaining rooms. -/
theorem parse_failure_aborts_request (fs : FS) (p : Params) (rooms : List String)
    (r : String) (lines : List Line)
    (hp : p.rooms = some (RoomsSpec.list rooms)) (hr : r ∈ rooms)
    (hlk : lookupFS fs r = some lines) (hm : Line.malformed ∈ lines) :
    (∃ m, analyzeData fs p = Out.text ("Analysis error: " ++ m))
    ∧ isAggOut (analyzeData fs p) = false := by
  obtain ⟨e, he⟩ := loadRooms_error_of_malformed fs rooms r hr lines hlk hm
  have hb : analyzeData fs p = Out.text ("Analysis error: " ++ pyMsg e) := by
    unfold analyzeData analyzeBody combinedStage
    rw [hp, show expandRooms ((some (RoomsSpec.list rooms)).getD RoomsSpec.all) = rooms from rfl,
        he]
  exact ⟨⟨pyMsg e, hb⟩, by rw [hb]; rfl⟩

/-- Witness for C3 (amended) at a concrete two-room request whose first
room has a malformed line. -/
theorem parse_failure_aborts_request_witness :
    (∃ m, analyzeData [("room_x", [Line.malformed]),
          ("room_y", [Line.record [("co2", Value.num 1)]])]
        { rooms := some (.list ["room_x", "room_y"]) } =
        Out.text ("Analysis error: " ++ m))
    ∧ isAggOut (analyzeData [("room_x", [Line.malformed]),
          ("room_y", [Line.record [("co2", Value.num 1)]])]
        { rooms := some (.list ["room_x", "room_y"]) }) = false :=
  parse_failure_aborts_request _ _ ["room_x", "room_y"] "room_x" [Line.malformed]
    rfl (by decide) rfl (by decide)

/-- Counterexample to C3 as stated: `room_a` has a malformed line,
`room_b` is fine, yet the request returns an analysis error instead of
`room_b`'s aggregation. -/
theorem parse_failure_aborts_request_cex :
    analyzeData [("room_a", [Line.malformed]),
                 ("room_b", [Line.record [("co2", Value.num 400)]])]
      { rooms := some (.list ["room_a", "room_b"]), metrics := some ["co2"] } =
      Out.text "Analysis error: Expecting value" := by
  rfl

/-! ### Claim C5 -/

/-- C5 (amended): an explicit `group_by` outside {hour, day, room, date}
falls back to the whole-dataset descriptive summary, but an omitted
`group_by` does not: it defaults to grouping by room. -/
theorem groupby_fallback_semantics (fs : FS) (g : String)
    (op : Option String) (rs : Option RoomsSpec) (ms : Option (List String))
    (fl : Option DateFilter) (ct : Option String)
    (hg : g ∉ (["hour", "day", "room", "date"] : List String)) :
    analyzeData fs ⟨op, rs, ms, some g, fl, ct⟩ =
        fallbackOut fs ⟨op, rs, ms, some g, fl, ct⟩
    ∧ analyzeData fs ⟨op, rs, ms, none, fl, ct⟩ =
        analyzeData fs ⟨op, rs, ms, some "room", fl, ct⟩ := by
  constructor
  · simp only [List.mem_cons, List.not_mem_nil, or_false, not_or] at hg
    obtain ⟨h1, h2, h3, h4⟩ := hg
    unfold analyzeData analyzeBody fallbackOut
    dsimp only
    cases hcs : combinedStage fs rs fl with
    | error e => rfl
    | ok od =>
      cases od with
      | none => rfl
      | some df =>
        dsimp only [Option.getD]
        rw [if_neg h1, if_neg h2, if_neg h3, if_neg h4]
        cases hde : describeE df (availMetrics df ⟨op, rs, ms, some g, fl, ct⟩) with
        | error e => rfl
        | ok t => rfl
  · rfl

/-- Witness for C5 (amended) at `group_by = "week"`. -/
theorem groupby_fallback_semantics_witness :
    analyzeData [("room_b", [Line.record [("co2", Value.num 2)]])]
        ⟨none, some (.list ["room_b"]), some ["co2"], some "week", none, none⟩ =
        fallbackOut [("room_b", [Line.record [("co2", Value.num 2)]])]
          ⟨none, some (.list ["room_b"]), some ["co2"], some "week", none, none⟩
    ∧ analyzeData [("room_b", [Line.record [("co2", Value.num 2)]])]
        ⟨none, some (.list ["room_b"]), some ["co2"], none, none, none⟩ =
        analyzeData [("room_b", [Line.record [("co2", Value.num 2)]])]
          ⟨none, some (.list ["room_b"]), some ["co2"], some "room", none, none⟩ :=
  groupby_fallback_semantics _ "week" none (some (.list ["room_b"])) (some ["co2"])
    none none (by decide)

/-- Counterexample to C5 as stated: with `group_by` omitted the engine
returns the room aggregation (mean/min/max/std keyed by room id), not
the descriptive-statistics summary that an out-of-set value such as
"week" produces; the two outputs differ. -/
theorem groupby_default_is_room_cex :
    analyzeData [("room_a", [Line.record [("co2", Value.num 400)]])]
        ⟨none, some (.list ["room_a"]), some ["co2"], none, none, none⟩ =
      Out.json [(GKey.s "room_a",
        [(CLabel.pair "co2" "mean", RVal.num 400), (CLabel.pair "co2" "min", RVal.num 400),
         (CLabel.pair "co2" "max", RVal.num 400), (CLabel.pair "co2" "std", RVal.na)])] ∧
    analyzeData [("room_a", [Line.record [("co2", Value.num 400)]])]
        ⟨none, some (.list ["room_a"]), some ["co2"], some "week", none, none⟩ =
      Out.json [(GKey.s "count", [(CLabel.single "co2", RVal.num 1)]),
        (GKey.s "mean", [(CLabel.single "co2", RVal.num 400)]),
        (GKey.s "std", [(CLabel.single "co2", RVal.na)]),
        (GKey.s "min", [(CLabel.single "co2", RVal.num 400)]),
        (GKey.s "25%", [(CLabel.single "co2", RVal.num 400)]),
        (GKey.s "50%", [(CLabel.single "co2", RVal.num 400)]),
        (GKey.s "75%", [(CLabel.single "co2", RVal.num 400)]),
        (GKey.s "max", [(CLabel.single "co2", RVal.num 400)])] ∧
    Out.json [(GKey.s "room_a",
        [(CLabel.pair "co2" "mean", RVal.num 400), (CLabel.pair "co2" "min", RVal.num 400),
         (CLabel.pair "co2" "max", RVal.num 400), (CLabel.pair "co2" "std", RVal.na)])] ≠
      Out.json [(GKey.s "count", [(CLabel.single "co2", RVal.num 1)]),
        (GKey.s "mean", [(CLabel.single "co2", RVal.num 400)]),
        (GKey.s "std", [(CLabel.single "co2", RVal.na)]),
        (GKey.s "min", [(CLabel.single "co2", RVal.num 400)]),
        (GKey.s "25%", [(CLabel.single "co2", RVal.num 400)]),
        (GKey.s "50%", [(CLabel.single "co2", RVal.num 400)]),
        (GKey.s "75%", [(CLabel.single "co2", RVal.num 400)]),
        (GKey.s "max", [(CLabel.single "co2", RVal.num 400)])] := by
  refine ⟨?_, ?_, by decide⟩
  · have h1 : analyzeData [("room_a", [Line.record [("co2", Value.num 400)]])]
        ⟨none, some (.list ["room_a"]), some ["co2"], none, none, none⟩ =
        Out.json (roundTable [(GKey.s "room_a",
          [(CLabel.pair "co2" "mean", meanOf [(400 : ℚ)]),
           (CLabel.pair "co2" "min", minOf [(400 : ℚ)]),
           (CLabel.pair "co2" "max", maxOf [(400 : ℚ)]),
           (CLabel.pair "co2" "std", stdOf [(400 : ℚ)])])]) := by rfl
    rw [h1]
    norm_num [roundTable, roundRVal, meanOf, minOf, maxOf, stdOf, round2, rhe]
  · have h2 : analyzeData [("room_a", [Line.record [("co2", Value.num 400)]])]
        ⟨none, some (.list ["room_a"]), some ["co2"], some "week", none, none⟩ =
        Out.json [(GKey.s "count", [(CLabel.single "co2", countOf [(400 : ℚ)])]),
          (GKey.s "mean", [(CLabel.single "co2", meanOf [(400 : ℚ)])]),
          (GKey.s "std", [(CLabel.single "co2", stdOf [(400 : ℚ)])]),
          (GKey.s "min", [(CLabel.single "co2", minOf [(400 : ℚ)])]),
          (GKey.s "25%", [(CLabel.single "co2", quantileOf [(400 : ℚ)] (1/4))]),
          (GKey.s "50%", [(CLabel.single "co2", quantileOf [(400 : ℚ)] (1/2))]),
          (GKey.s "75%", [(CLabel.single "co2", quantileOf [(400 : ℚ)] (3/4))]),
          (GKey.s "max", [(CLabel.single "co2", maxOf [(400 : ℚ)])])] := by rfl
    rw [h2]
    norm_num [countOf, meanOf, stdOf, minOf, maxOf, quantileOf, insertionSort, insertSorted]

/-! ### Claim C6 -/

lemma rhe_intCast (k : ℤ) : rhe (k : ℚ) = k := by
  unfold rhe
  norm_num

lemma round2_idem (x : ℚ) : round2 (round2 x) = round2 x := by
  unfold round2
  rw [div_mul_cancel₀ ((rhe (x * 100) : ℤ) : ℚ) (by norm_num : (100 : ℚ) ≠ 0), rhe_intCast]

lemma tableRounded_roundTable (t : Table) : tableRounded (roundTable t) = true := by
  unfold tableRounded roundTable
  rw [List.all_map, List.all_eq_true]
  intro kv _
  dsimp only [Function.comp]
  rw [List.all_map, List.all_eq_true]
  intro cv _
  dsimp only [Function.comp]
  cases hcv : cv.2 with
  | num x => simp [rvalRounded, roundRVal, round2_idem]
  | rsqrt v => rfl
  | rsqrt2 v => rfl
  | str s => rfl
  | na => rfl

lemma roundBranch_ok_inv (x : Except PyErr Table) (o : Out)
    (h : x.map (fun t => Out.json (roundTable t)) = .ok o) :
    ∃ t0, o = Out.json (roundTable t0) := by
  cases x with
  | error e => simp [Except.map] at h
  | ok t0 =>
    simp only [Except.map] at h
    cases h
    exact ⟨t0, rfl⟩

/-- C6 (amended): on the four grouping paths (hour, day, room, date)
every numeric value of the serialized result is rounded to 2 decimal
places; the describe fallback path, by contrast, serializes unrounded
values. -/
theorem grouped_paths_rounded (fs : FS) (p : Params) (g : String) (t : Table)
    (hg : g ∈ (["hour", "day", "room", "date"] : List String))
    (hp : p.group_by = some g)
    (ht : analyzeData fs p = Out.json t) :
    tableRounded t = true := by
  have hb : analyzeBody fs p = .ok (Out.json t) := by
    unfold analyzeData at ht
    cases hab : analyzeBody fs p with
    | ok o => rw [hab] at ht; simp only at ht; rw [ht]
    | error e => rw [hab] at ht; cases ht
  unfold analyzeBody at hb
  cases hcs : combinedStage fs p.rooms p.filter with
  | error e => rw [hcs] at hb; cases hb
  | ok od =>
    rw [hcs] at hb
    cases od with
    | none => simp at hb
    | some df =>
      simp only at hb
      rw [hp] at hb
      dsimp only [Option.getD] at hb
      simp only [List.mem_cons, List.not_mem_nil, or_false] at hg
      rcases hg with rfl | rfl | rfl | rfl
      · rw [if_pos rfl] at hb
        obtain ⟨t0, ho⟩ := roundBranch_ok_inv _ _ hb
        injection ho with h2
        rw [h2]
        exact tableRounded_roundTable t0
      · rw [if_neg (by decide), if_pos rfl] at hb
        obtain ⟨t0, ho⟩ := roundBranch_ok_inv _ _ hb
        injection ho with h2
        rw [h2]
        exact tableRounded_roundTable t0
      · rw [if_neg (by decide), if_neg (by decide), if_pos rfl] at hb
        obtain ⟨t0, ho⟩ := roundBranch_ok_inv _ _ hb
        injection ho with h2
        rw [h2]
        exact tableRounded_roundTable t0
      · rw [if_neg (by decide), if_neg (by decide), if_neg (by decide), if_pos rfl] at hb
        obtain ⟨t0, ho⟩ := roundBranch_ok_inv _ _ hb
        injection ho with h2
        rw [h2]
        exact tableRounded_roundTable t0

/-- Witness for C6 (amended) on the room path. -/
theorem grouped_paths_rounded_witness :
    tableRounded [(GKey.s "room_a",
      [(CLabel.pair "co2" "mean", RVal.num 400), (CLabel.pair "co2" "min", RVal.num 400),
       (CLabel.pair "co2" "max", RVal.num 400), (CLabel.pair "co2" "std", RVal.na)])] = true := by
  apply grouped_paths_rounded [("room_a", [Line.record [("co2", Value.num 400)]])]
    ⟨none, some (.list ["room_a"]), some ["co2"], some "room", none, none⟩ "room"
  · decide
  · rfl
  · have h1 : analyzeData [("room_a", [Line.record [("co2", Value.num 400)]])]
        ⟨none, some (.list ["room_a"]), some ["co2"], some "room", none, none⟩ =
        Out.json (roundTable [(GKey.s "room_a",
          [(CLabel.pair "co2" "mean", meanOf [(400 : ℚ)]),
           (CLabel.pair "co2" "min", minOf [(400 : ℚ)]),
           (CLabel.pair "co2" "max", maxOf [(400 : ℚ)]),
           (CLabel.pair "co2" "std", stdOf [(400 : ℚ)])])]) := by rfl
    rw [h1]
    norm_num [roundTable, roundRVal, meanOf, minOf, maxOf, stdOf, round2, rhe]

/-- Counterexample to C6 as stated: on the describe fallback path the
serialized mean of co2 values 1, 1, 2 is the unrounded 4/3. -/
theorem describe_path_unrounded_cex :
    analyzeData [("room_a",
        [Line.record [("co2", Value.num 1)], Line.record [("co2", Value.num 1)],
         Line.record [("co2", Value.num 2)]])]
        ⟨none, some (.list ["room_a"]), some ["co2"], some "summary", none, none⟩ =
      Out.json [(GKey.s "count", [(CLabel.single "co2", RVal.num 3)]),
        (GKey.s "mean", [(CLabel.single "co2", RVal.num (4/3))]),
        (GKey.s "std", [(CLabel.single "co2", stdOf [(1 : ℚ), 1, 2])]),
        (GKey.s "min", [(CLabel.single "co2", RVal.num 1)]),
        (GKey.s "25%", [(CLabel.single "co2", RVal.num 1)]),
        (GKey.s "50%", [(CLabel.single "co2", RVal.num 1)]),
        (GKey.s "75%", [(CLabel.single "co2", RVal.num (3/2))]),
        (GKey.s "max", [(CLabel.single "co2", RVal.num 2)])] ∧
    round2 (4/3) ≠ (4/3 : ℚ) ∧ rvalRounded (RVal.num (4/3)) = false := by
  refine ⟨?_, by norm_num [round2, rhe], by norm_num [rvalRounded, round2, rhe]⟩
  have h2 : analyzeData [("room_a",
        [Line.record [("co2", Value.num 1)], Line.record [("co2", Value.num 1)],
         Line.record [("co2", Value.num 2)]])]
        ⟨none, some (.list ["room_a"]), some ["co2"], some "summary", none, none⟩ =
      Out.json [(GKey.s "count", [(CLabel.single "co2", countOf [(1 : ℚ), 1, 2])]),
        (GKey.s "mean", [(CLabel.single "co2", meanOf [(1 : ℚ), 1, 2])]),
        (GKey.s "std", [(CLabel.single "co2", stdOf [(1 : ℚ), 1, 2])]),
        (GKey.s "min", [(CLabel.single "co2", minOf [(1 : ℚ), 1, 2])]),
        (GKey.s "25%", [(CLabel.single "co2", quantileOf [(1 : ℚ), 1, 2] (1/4))]),
        (GKey.s "50%", [(CLabel.single "co2", quantileOf [(1 : ℚ), 1, 2] (1/2))]),
        (GKey.s "75%", [(CLabel.single "co2", quantileOf [(1 : ℚ), 1, 2] (3/4))]),
        (GKey.s "max", [(CLabel.single "co2", maxOf [(1 : ℚ), 1, 2])])] := by rfl
  rw [h2]
  norm_num [countOf, meanOf, minOf, maxOf, quantileOf, insertionSort, insertSorted]
